import Mathlib

/-!
Shallow embedding of `op-challenger/game/fault/types/types.go` (fault dispute
game types) together with the Position arithmetic the spec describes.

Byte slices are modelled as `List Nat` (each element a byte value),
`common.Hash` / `big.Int` values as `Nat`, and Go panics as `Option` /
`Except` failures.
-/

/-- Big-endian byte encoding of `n` into exactly `w` bytes (low bytes of `n`
if it does not fit; callers that need exactness carry a `n < 2^(8*w)` bound,
matching Go fixed-width array types). -/
def beBytes : Nat → Nat → List Nat
  | 0, _ => []
  | w + 1, n => beBytes w (n / 256) ++ [n % 256]

/-- Big-endian interpretation of a byte list as a natural number, as
`big.Int.SetBytes` does. -/
def beToNat (bs : List Nat) : Nat :=
  bs.foldl (fun acc b => acc * 256 + b) 0

/-- `big.Int.FillBytes` on a `w`-byte buffer: writes the big-endian bytes of
`n`, and panics (modelled as `none`) when `n` does not fit in `w` bytes. -/
def fillBytes (w n : Nat) : Option (List Nat) :=
  if n < 2 ^ (8 * w) then some (beBytes w n) else none

/-- Modelled from the spec: `Position` from the fault game's position
arithmetic (its file is not part of the sources here) — a node of a complete
binary tree given by depth and index-at-depth, with invariant
`indexAtDepth < 2^depth`. -/
structure Position where
  depth : Nat
  indexAtDepth : Nat
deriving DecidableEq, Repr

/-- Modelled from the spec: the generalized index `G = 2^depth + indexAtDepth`. -/
def Position.ToGIndex (p : Position) : Nat :=
  2 ^ p.depth + p.indexAtDepth

/-- Modelled from the spec: `IsRootPosition()` holds iff depth = 0 and
indexAtDepth = 0. -/
def Position.IsRootPosition (p : Position) : Bool :=
  p.depth == 0 && p.indexAtDepth == 0

/-- Modelled from the spec: parent is `(depth − 1, indexAtDepth / 2)`. -/
def Position.parent (p : Position) : Position :=
  ⟨p.depth - 1, p.indexAtDepth / 2⟩

/-- Modelled from the spec: left child is `(depth + 1, 2·i)`. -/
def Position.leftChild (p : Position) : Position :=
  ⟨p.depth + 1, 2 * p.indexAtDepth⟩

/-- Modelled from the spec: right child is `(depth + 1, 2·i + 1)`. -/
def Position.rightChild (p : Position) : Position :=
  ⟨p.depth + 1, 2 * p.indexAtDepth + 1⟩

/-- The bisection-move error from `types.go`: `ErrGameDepthReached`. -/
inductive MoveError where
  | ErrGameDepthReached
deriving DecidableEq, Repr

/-- Modelled from the spec: the attack move is the left child of the disputed
position; at `depth = maxDepth` no further move is possible and the attempt
fails with the depth-exhausted error `ErrGameDepthReached`. -/
def Position.attack (maxDepth : Nat) (p : Position) : Except MoveError Position :=
  if maxDepth ≤ p.depth then .error .ErrGameDepthReached else .ok p.leftChild

/-- Modelled from the spec: the defend move is the right child (one level
deeper, odd index); at `depth = maxDepth` it fails with `ErrGameDepthReached`. -/
def Position.defend (maxDepth : Nat) (p : Position) : Except MoveError Position :=
  if maxDepth ≤ p.depth then .error .ErrGameDepthReached else .ok p.rightChild

/-- `ClaimData` from `types.go`: a 32-byte commitment value (as a big-endian
integer) at a `Position`. -/
structure ClaimData where
  Value : Nat
  Position : Position
deriving DecidableEq, Repr

/-- `Claim` from `types.go`: `ClaimData` plus resolution state. -/
structure Claim where
  claimData : ClaimData
  Countered : Bool
  Clock : Nat
  ContractIndex : Int
  ParentContractIndex : Int
deriving DecidableEq, Repr

/-- Go field promotion: `c.Value` reads the embedded `ClaimData`. -/
def Claim.Value (c : Claim) : Nat :=
  c.claimData.Value

/-- Go field promotion: `c.Position` reads the embedded `ClaimData`. -/
def Claim.Position (c : Claim) : Position :=
  c.claimData.Position

/-- The zero-valued `Claim{}` of Go. -/
def zeroClaim : Claim :=
  { claimData := { Value := 0, Position := ⟨0, 0⟩ }
    Countered := false
    Clock := 0
    ContractIndex := 0
    ParentContractIndex := 0 }

/-- `Claim.IsRoot` from `types.go`: delegates to `Position.IsRootPosition`. -/
def Claim.IsRoot (c : Claim) : Bool :=
  c.Position.IsRootPosition

/-- `LocalContextPreimage` from `types.go`. -/
structure LocalContextPreimage where
  Pre : Claim
  Post : Claim
deriving DecidableEq, Repr

/-- `UsePrestateBlock` from `types.go`: `l.Pre == (Claim{})`. -/
def LocalContextPreimage.UsePrestateBlock (l : LocalContextPreimage) : Bool :=
  l.Pre == zeroClaim

/-- The inner `encodeClaim` of `LocalContextPreimage.Preimage` in `types.go`:
a 64-byte buffer holding `c.Value.Bytes()` (32 bytes) followed by
`c.Position.ToGIndex().FillBytes` into the remaining 32 bytes; `FillBytes`
panics (`none`) when the generalized index exceeds 32 bytes. -/
def encodeClaim (c : Claim) : Option (List Nat) :=
  (fillBytes 32 c.Position.ToGIndex).map (fun gi => beBytes 32 c.Value ++ gi)

/-- `Preimage` from `types.go`: `encodeClaim(Pre)` (omitted when
`UsePrestateBlock`) followed by `encodeClaim(Post)`. -/
def LocalContextPreimage.Preimage (l : LocalContextPreimage) : Option (List Nat) :=
  if l.UsePrestateBlock then encodeClaim l.Post
  else
    match encodeClaim l.Pre, encodeClaim l.Post with
    | some a, some b => some (a ++ b)
    | _, _ => none

/-- `Hash` from `types.go`: `crypto.Keccak256Hash(l.Preimage())`. Keccak-256
is an external go-ethereum primitive, so it enters as a function parameter. -/
def LocalContextPreimage.Hash (keccak256 : List Nat → Nat)
    (l : LocalContextPreimage) : Option Nat :=
  (l.Preimage).map keccak256

/-- Modelled from the spec: `encode(c)` is the 32-byte big-endian claim value
concatenated with the 32-byte big-endian generalized index of `c.Position`. -/
def specEncodeClaim (c : Claim) : List Nat :=
  beBytes 32 c.Value ++ beBytes 32 c.Position.ToGIndex

/-- `PreimageOracleData` from `types.go`. -/
structure PreimageOracleData where
  IsLocal : Bool
  LocalContext : Nat
  OracleKey : List Nat
  OracleData : List Nat
  OracleOffset : Nat
deriving DecidableEq, Repr

/-- `GetIdent` from `types.go`: `new(big.Int).SetBytes(p.OracleKey[1:])`.
The slice expression `OracleKey[1:]` panics (`none`) when `OracleKey` is
empty. -/
def PreimageOracleData.GetIdent (p : PreimageOracleData) : Option Nat :=
  match p.OracleKey with
  | [] => none
  | _ :: rest => some (beToNat rest)

/-- `GetPreimageWithoutSize` from `types.go`: `p.OracleData[8:]`. The slice
expression panics (`none`) when `OracleData` has fewer than 8 bytes. -/
def PreimageOracleData.GetPreimageWithoutSize (p : PreimageOracleData) :
    Option (List Nat) :=
  if 8 ≤ p.OracleData.length then some (p.OracleData.drop 8) else none

/-- `NewPreimageOracleData` from `types.go`:
`IsLocal := len(key) > 0 && key[0] == byte(1)`, other fields stored as
passed. -/
def NewPreimageOracleData (lctx : Nat) (key data : List Nat) (offset : Nat) :
    PreimageOracleData :=
  { IsLocal := match key with
      | [] => false
      | b :: _ => b == 1
    LocalContext := lctx
    OracleKey := key
    OracleData := data
    OracleOffset := offset }

theorem beBytes_length (w n : Nat) : (beBytes w n).length = w := by
  induction w generalizing n with
  | zero => rfl
  | succ w ih => simp [beBytes, ih]

/-- C1: `GetIdent()` on a `PreimageOracleData` fails explicitly (the slice
panic, modelled as `none`) exactly when `OracleKey` is empty; for every
non-empty `OracleKey` it succeeds with the big-endian value of the key
without its 1-byte tag. -/
theorem C1_getIdent_fails_iff_empty_key (p : PreimageOracleData) :
    (p.GetIdent = none ↔ p.OracleKey = []) ∧
    (p.OracleKey ≠ [] → ∃ n, p.GetIdent = some n) := by
  cases h : p.OracleKey with
  | nil => simp [PreimageOracleData.GetIdent, h]
  | cons b rest => simp [PreimageOracleData.GetIdent, h]

/-- C1 witness: on the empty key `GetIdent` fails, and on key
`[1, 5]` (tag byte 1, big-endian bytes of 5) it succeeds. -/
theorem C1_getIdent_witness :
    (PreimageOracleData.mk false 0 [] [] 0).GetIdent = none ∧
    ∃ n, (PreimageOracleData.mk true 0 [1, 5] [] 0).GetIdent = some n :=
  ⟨(C1_getIdent_fails_iff_empty_key ⟨false, 0, [], [], 0⟩).1.mpr rfl,
   (C1_getIdent_fails_iff_empty_key ⟨true, 0, [1, 5], [], 0⟩).2 (by decide)⟩

/-- C2 counterexample: it is not the case that `GetPreimageWithoutSize()` is
total — on `OracleData = []` (shorter than 8 bytes) the slice expression
`OracleData[8:]` panics instead of returning the suffix `[]`. -/
theorem C2_getPreimage_not_total :
    ¬ ∀ p : PreimageOracleData,
        p.GetPreimageWithoutSize = some (p.OracleData.drop 8) := by
  intro h
  have := h ⟨false, 0, [], [], 0⟩
  simp [PreimageOracleData.GetPreimageWithoutSize] at this

/-- C2 (amended): `GetPreimageWithoutSize()` returns the suffix of
`OracleData` after the first 8 bytes whenever `OracleData` has at least 8
bytes; for shorter `OracleData` the slice expression panics (fails) instead
of returning a suffix. -/
theorem C2_getPreimage_after_8 (p : PreimageOracleData) :
    (8 ≤ p.OracleData.length →
      p.GetPreimageWithoutSize = some (p.OracleData.drop 8)) ∧
    (p.OracleData.length < 8 → p.GetPreimageWithoutSize = none) := by
  constructor <;> intro h <;>
    simp [PreimageOracleData.GetPreimageWithoutSize, h, Nat.not_le.mpr h]

/-- C2 witness: on 9 bytes of oracle data the preimage after the 8-byte
length prefix is the final byte. -/
theorem C2_getPreimage_witness :
    8 ≤ ([0, 0, 0, 0, 0, 0, 0, 1, 42] : List Nat).length ∧
    (PreimageOracleData.mk false 0 [] [0, 0, 0, 0, 0, 0, 0, 1, 42]
        0).GetPreimageWithoutSize = some [42] :=
  ⟨by decide,
   (C2_getPreimage_after_8 ⟨false, 0, [], [0, 0, 0, 0, 0, 0, 0, 1, 42], 0⟩).1
     (by decide)⟩

/-- C4: `UsePrestateBlock()` returns true iff `Pre` equals the zero-valued
`Claim`. -/
theorem C4_usePrestateBlock_iff_zero_pre (l : LocalContextPreimage) :
    l.UsePrestateBlock = true ↔ l.Pre = zeroClaim := by
  simp [LocalContextPreimage.UsePrestateBlock]

/-- C4 witness: a preimage whose `Pre` is the zero claim uses the prestate
block. -/
theorem C4_usePrestateBlock_witness :
    (LocalContextPreimage.mk zeroClaim zeroClaim).UsePrestateBlock = true :=
  (C4_usePrestateBlock_iff_zero_pre ⟨zeroClaim, zeroClaim⟩).mpr rfl

/-- C6: for every non-empty key `b :: rest`, `NewPreimageOracleData` sets
`IsLocal` to whether the first byte is 1, so `IsLocal ⇔ OracleKey[0] = 1`
holds for the constructed value. -/
theorem C6_newPreimageOracleData_isLocal (lctx : Nat) (b : Nat)
    (rest data : List Nat) (offset : Nat) :
    ((NewPreimageOracleData lctx (b :: rest) data offset).IsLocal = (b == 1)) ∧
    ((NewPreimageOracleData lctx (b :: rest) data offset).IsLocal = true ↔
      (NewPreimageOracleData lctx (b :: rest) data offset).OracleKey.headD 0
        = 1) := by
  constructor
  · rfl
  · simp [NewPreimageOracleData]

/-- C6 witness: key starting with byte 1 yields `IsLocal = true`; key
starting with byte 0 yields `IsLocal = false`. -/
theorem C6_newPreimageOracleData_witness :
    (NewPreimageOracleData 0 [1, 7] [] 0).IsLocal = true ∧
    (NewPreimageOracleData 0 [0, 7] [] 0).IsLocal = false := by
  refine ⟨?_, ?_⟩
  · exact (C6_newPreimageOracleData_isLocal 0 1 [7] [] 0).1.trans (by decide)
  · exact (C6_newPreimageOracleData_isLocal 0 0 [7] [] 0).1.trans (by decide)

/-- C9: `Claim.IsRoot()` returns true iff the claim's position is the root
position, i.e. depth = 0 and indexAtDepth = 0 (agreeing with
`Position.IsRootPosition`). -/
theorem C9_isRoot_iff_root_position (c : Claim) :
    (c.IsRoot = true ↔
      (c.Position.depth = 0 ∧ c.Position.indexAtDepth = 0)) ∧
    c.IsRoot = c.Position.IsRootPosition := by
  constructor
  · simp [Claim.IsRoot, Position.IsRootPosition]
  · rfl

/-- C9 witness: the zero claim sits at the root position. -/
theorem C9_isRoot_witness : zeroClaim.IsRoot = true :=
  (C9_isRoot_iff_root_position zeroClaim).1.mpr ⟨rfl, rfl⟩

/-- C10: `NewPreimageOracleData` with an empty key does not fail: it yields
`IsLocal = false` and stores `OracleKey`, `OracleData`, `LocalContext` and
`OracleOffset` exactly as passed. -/
theorem C10_newPreimageOracleData_empty_key (lctx : Nat) (data : List Nat)
    (offset : Nat) :
    (NewPreimageOracleData lctx [] data offset).IsLocal = false ∧
    (NewPreimageOracleData lctx [] data offset).OracleKey = [] ∧
    (NewPreimageOracleData lctx [] data offset).OracleData = data ∧
    (NewPreimageOracleData lctx [] data offset).LocalContext = lctx ∧
    (NewPreimageOracleData lctx [] data offset).OracleOffset = offset :=
  ⟨rfl, rfl, rfl, rfl, rfl⟩

theorem encodeClaim_eq_spec (c : Claim) (h : c.Position.ToGIndex < 2 ^ 256) :
    encodeClaim c = some (specEncodeClaim c) := by
  have h8 : c.Position.ToGIndex < 2 ^ (8 * 32) := by
    have hp : (2 : Nat) ^ 256 = 2 ^ (8 * 32) := by norm_num
    rw [← hp]
    exact h
  unfold encodeClaim fillBytes
  rw [if_pos h8]
  rfl

theorem specEncodeClaim_length (c : Claim) : (specEncodeClaim c).length = 64 := by
  simp [specEncodeClaim, beBytes_length]

/-- C3: for every `LocalContextPreimage` whose generalized indices fit a
256-bit word, `Preimage()` is `encode(Pre) ‖ encode(Post)` when
`UsePrestateBlock()` is false and `encode(Post)` alone when it is true, with
`encode(c)` the 32-byte big-endian value followed by the 32-byte big-endian
generalized index; the result is exactly 128 resp. 64 bytes. -/
theorem C3_preimage_encoding (l : LocalContextPreimage)
    (hpre : l.Pre.Position.ToGIndex < 2 ^ 256)
    (hpost : l.Post.Position.ToGIndex < 2 ^ 256) :
    l.Preimage = some (if l.UsePrestateBlock then specEncodeClaim l.Post
      else specEncodeClaim l.Pre ++ specEncodeClaim l.Post) ∧
    (l.Preimage).map List.length =
      some (if l.UsePrestateBlock then 64 else 128) := by
  have h1 := encodeClaim_eq_spec l.Pre hpre
  have h2 := encodeClaim_eq_spec l.Post hpost
  cases hu : l.UsePrestateBlock with
  | true =>
      refine ⟨?_, ?_⟩ <;>
        simp [LocalContextPreimage.Preimage, hu, h2, specEncodeClaim_length]
  | false =>
      refine ⟨?_, ?_⟩ <;>
        simp [LocalContextPreimage.Preimage, hu, h1, h2, specEncodeClaim_length]

/-- C3 witness: with `Pre` a nonzero claim at position (1,0) and `Post` at
(1,1), both generalized indices fit 256 bits and the preimage is the
128-byte concatenation `encode(Pre) ‖ encode(Post)`. -/
theorem C3_preimage_witness :
    (Claim.Position ⟨⟨1, ⟨1, 0⟩⟩, false, 0, 0, 0⟩).ToGIndex < 2 ^ 256 ∧
    (Claim.Position ⟨⟨2, ⟨1, 1⟩⟩, false, 0, 0, 0⟩).ToGIndex < 2 ^ 256 ∧
    (LocalContextPreimage.mk ⟨⟨1, ⟨1, 0⟩⟩, false, 0, 0, 0⟩
        ⟨⟨2, ⟨1, 1⟩⟩, false, 0, 0, 0⟩).Preimage =
      some (specEncodeClaim ⟨⟨1, ⟨1, 0⟩⟩, false, 0, 0, 0⟩ ++
        specEncodeClaim ⟨⟨2, ⟨1, 1⟩⟩, false, 0, 0, 0⟩) ∧
    ((LocalContextPreimage.mk ⟨⟨1, ⟨1, 0⟩⟩, false, 0, 0, 0⟩
        ⟨⟨2, ⟨1, 1⟩⟩, false, 0, 0, 0⟩).Preimage).map List.length = some 128 := by
  have h := C3_preimage_encoding
      ⟨⟨⟨1, ⟨1, 0⟩⟩, false, 0, 0, 0⟩, ⟨⟨2, ⟨1, 1⟩⟩, false, 0, 0, 0⟩⟩
      (by decide) (by decide)
  have hu : (LocalContextPreimage.mk ⟨⟨1, ⟨1, 0⟩⟩, false, 0, 0, 0⟩
      ⟨⟨2, ⟨1, 1⟩⟩, false, 0, 0, 0⟩).UsePrestateBlock = false := by decide
  rw [hu] at h
  exact ⟨by decide, by decide, by simpa using h.1, by simpa using h.2⟩

/-- C5: `Hash()` equals keccak256 applied to `Preimage()` (for the external
keccak256 function, taken as a parameter), and `Hash()` is deterministic:
equal `LocalContextPreimage` values hash equally. -/
theorem C5_hash_is_keccak_of_preimage (keccak256 : List Nat → Nat)
    (l : LocalContextPreimage) :
    l.Hash keccak256 = (l.Preimage).map keccak256 ∧
    ∀ l' : LocalContextPreimage, l = l' →
      l.Hash keccak256 = l'.Hash keccak256 :=
  ⟨rfl, fun _ h => by rw [h]⟩

/-- C5 witness: instantiated at the concrete byte-fold function `beToNat`
and a concrete preimage value. -/
theorem C5_hash_witness :
    (LocalContextPreimage.mk zeroClaim zeroClaim).Hash beToNat =
      ((LocalContextPreimage.mk zeroClaim zeroClaim).Preimage).map beToNat ∧
    (LocalContextPreimage.mk zeroClaim zeroClaim).Hash beToNat =
      (LocalContextPreimage.mk zeroClaim zeroClaim).Hash beToNat :=
  ⟨(C5_hash_is_keccak_of_preimage beToNat ⟨zeroClaim, zeroClaim⟩).1,
   (C5_hash_is_keccak_of_preimage beToNat ⟨zeroClaim, zeroClaim⟩).2
     ⟨zeroClaim, zeroClaim⟩ rfl⟩

/-- C7: for every valid position (indexAtDepth < 2^depth), the parent of the
left child and the parent of the right child are the position itself. -/
theorem C7_parent_of_children (p : Position)
    (hvalid : p.indexAtDepth < 2 ^ p.depth) :
    p.leftChild.parent = p ∧ p.rightChild.parent = p := by
  cases p with
  | mk d i =>
      refine ⟨?_, ?_⟩ <;>
        · simp only [Position.parent, Position.leftChild, Position.rightChild,
            Position.mk.injEq]
          omega

/-- C7 witness: at the valid position (depth 2, index 1) both child moves
round-trip through `parent`. -/
theorem C7_parent_of_children_witness :
    (Position.mk 2 1).indexAtDepth < 2 ^ (Position.mk 2 1).depth ∧
    (Position.mk 2 1).leftChild.parent = Position.mk 2 1 ∧
    (Position.mk 2 1).rightChild.parent = Position.mk 2 1 :=
  ⟨by decide, C7_parent_of_children ⟨2, 1⟩ (by decide)⟩

/-- C8: at the game's maximum depth, both bisection moves (attack and
defend) fail with `ErrGameDepthReached` instead of producing a position. -/
theorem C8_moves_fail_at_max_depth (maxDepth : Nat) (p : Position)
    (h : p.depth = maxDepth) :
    p.attack maxDepth = .error .ErrGameDepthReached ∧
    p.defend maxDepth = .error .ErrGameDepthReached := by
  constructor <;> simp [Position.attack, Position.defend, h]

/-- C8 witness: with `maxDepth = 4`, the position (depth 4, index 0) admits
neither attack nor defend. -/
theorem C8_moves_fail_witness :
    (Position.mk 4 0).depth = 4 ∧
    (Position.mk 4 0).attack 4 = .error .ErrGameDepthReached ∧
    (Position.mk 4 0).defend 4 = .error .ErrGameDepthReached :=
  ⟨rfl, C8_moves_fail_at_max_depth 4 ⟨4, 0⟩ rfl⟩
